import Mathlib

/-!
Shallow embedding of `src/karton/core/backend.py` (the KartonBackend class of
the karton broker layer).

Modelling conventions:

* The Redis store is partitioned by namespace exactly as the code partitions
  its keyspace; each backend method is embedded as a pure function over the
  sub-state it touches, returning the new state where the method writes.
* Python values stored through `json.dumps` / read through `json.loads` are
  modelled at the JSON-value level: the store holds `Json` values and the
  `dumps`/`loads` pair at the store boundary is the identity embedding of a
  Python value into its JSON image.  Numeric literals are restricted to
  integers (floats are out of scope for the embedding).
* A string that is *itself* JSON-encoded inside another JSON value (the nested
  serialized task snapshot handled by `consume_log`) is decoded by a real
  executable parser `loads` below.
* Fallible Python code (KeyError, TypeError, redis DataError, ...) is embedded
  with `Except String`.
-/

namespace Karton

/-- JSON values, the image of Python values under `json.dumps`/`json.loads`.
Objects are association lists in insertion order (Python dicts are ordered
and, for the data handled here, have unique keys). -/
inductive Json where
  | null : Json
  | bool (b : Bool) : Json
  | num (n : Int) : Json
  | str (s : String) : Json
  | arr (xs : List Json) : Json
  | obj (kvs : List (String × Json)) : Json

/-- Python `d[k]` / `k in d` lookup on a JSON object association list. -/
def lookupKey : List (String × Json) → String → Option Json
  | [], _ => none
  | (k', v) :: rest, k => if k' = k then some v else lookupKey rest k

/-- Python `d[k] = v` on an (ordered, unique-key) dict: replaces the value in
place when the key exists, appends otherwise. -/
def setKey : List (String × Json) → String → Json → List (String × Json)
  | [], k, v => [(k, v)]
  | (k', v') :: rest, k, v =>
    if k' = k then (k', v) :: rest else (k', v') :: setKey rest k v

/-! ### An executable model of `json.loads` on strings

Used only where the code parses a string that is *inside* a JSON value
(`consume_log`'s nested task snapshot).  Supports the JSON grammar with
integer numerals and escape-free strings, which covers every value this
development evaluates it on. -/

/-- Skip JSON whitespace. -/
def skipWs : List Char → List Char
  | c :: cs =>
    if c = ' ' ∨ c = '\n' ∨ c = '\t' ∨ c = '\r' then skipWs cs else c :: cs
  | [] => []

/-- Expect a fixed sequence of characters. -/
def expectChars : List Char → List Char → Option (List Char)
  | [], cs => some cs
  | p :: ps, c :: cs => if c = p then expectChars ps cs else none
  | _ :: _, [] => none

/-- Parse the body of a (escape-free) JSON string literal after the opening
quote; returns content characters and the remaining input. -/
def parseStringLit : List Char → Option (List Char × List Char)
  | [] => none
  | c :: cs =>
    if c = '"' then some ([], cs)
    else if c = '\\' then none
    else (parseStringLit cs).map (fun p => (c :: p.1, p.2))

/-- Parse a nonempty digit run into a natural number. -/
def parseNat (cs : List Char) : Option (Nat × List Char) :=
  let p := cs.span (fun c => c.isDigit)
  if p.1.isEmpty then none
  else some (p.1.foldl (fun acc c => acc * 10 + (c.toNat - 48)) 0, p.2)

mutual

/-- Fuel-bounded recursive-descent parser for one JSON value. -/
def parseVal : Nat → List Char → Option (Json × List Char)
  | 0, _ => none
  | Nat.succ fuel, cs =>
    match skipWs cs with
    | [] => none
    | c :: rest =>
      if c = 'n' then (expectChars ['u', 'l', 'l'] rest).map (fun r => (Json.null, r))
      else if c = 't' then (expectChars ['r', 'u', 'e'] rest).map (fun r => (Json.bool true, r))
      else if c = 'f' then (expectChars ['a', 'l', 's', 'e'] rest).map (fun r => (Json.bool false, r))
      else if c = '"' then (parseStringLit rest).map (fun p => (Json.str (String.mk p.1), p.2))
      else if c = '[' then
        match skipWs rest with
        | ']' :: r2 => some (Json.arr [], r2)
        | r2 => (parseItems fuel r2).map (fun p => (Json.arr p.1, p.2))
      else if c = Char.ofNat 123 then
        match skipWs rest with
        | c2 :: r2 =>
          if c2 = Char.ofNat 125 then some (Json.obj [], r2)
          else (parseMembers fuel (c2 :: r2)).map (fun p => (Json.obj p.1, p.2))
        | [] => none
      else if c = '-' then
        (parseNat rest).map (fun p => (Json.num (-(p.1 : Int)), p.2))
      else if c.isDigit then
        (parseNat (c :: rest)).map (fun p => (Json.num (p.1 : Int), p.2))
      else none

/-- Parse the comma-separated items of a nonempty JSON array, consuming the
closing bracket. -/
def parseItems : Nat → List Char → Option (List Json × List Char)
  | 0, _ => none
  | Nat.succ fuel, cs =>
    match parseVal fuel cs with
    | none => none
    | some (v, r) =>
      match skipWs r with
      | c :: r2 =>
        if c = ',' then (parseItems fuel r2).map (fun p => (v :: p.1, p.2))
        else if c = ']' then some ([v], r2)
        else none
      | [] => none

/-- Parse the members of a nonempty JSON object, consuming the closing brace. -/
def parseMembers : Nat → List Char → Option (List (String × Json) × List Char)
  | 0, _ => none
  | Nat.succ fuel, cs =>
    match skipWs cs with
    | c :: rest =>
      if c = '"' then
        match parseStringLit rest with
        | none => none
        | some (k, r) =>
          match skipWs r with
          | c2 :: r2 =>
            if c2 = ':' then
              match parseVal fuel r2 with
              | none => none
              | some (v, r3) =>
                match skipWs r3 with
                | c3 :: r4 =>
                  if c3 = ',' then
                    (parseMembers fuel r4).map (fun p => ((String.mk k, v) :: p.1, p.2))
                  else if c3 = Char.ofNat 125 then some ([(String.mk k, v)], r4)
                  else none
                | [] => none
            else none
          | [] => none
      else none
    | [] => none

end

/-- Model of Python `json.loads` on a string: parse one value, require only
whitespace to remain.  `none` models `json.JSONDecodeError`. -/
def loads (s : String) : Option Json :=
  match parseVal (2 * s.length + 2) s.data with
  | some (j, rest) => if (skipWs rest).isEmpty then some j else none
  | none => none

/-! ### Data model -/

/-- Modelled from the spec: `TaskPriority` lives in `src/karton/core/task.py`,
which is not part of `src/`; section 6 of the spec fixes its wire encodings
`high` / `normal` / `low` used inside queue names. -/
inductive TaskPriority where
  | high : TaskPriority
  | normal : TaskPriority
  | low : TaskPriority
deriving DecidableEq

/-- Wire string of a priority (`priority.value` in the code). -/
def TaskPriority.value : TaskPriority → String
  | .high => "high"
  | .normal => "normal"
  | .low => "low"

/-- Modelled from the spec: the `Task` class lives in `src/karton/core/task.py`,
which is not part of `src/`.  The spec's data model gives a task a
fully-qualified id (`fquid = root:uid`), a priority and a headers mapping that
"may include a receiver identity".  Only the fields `backend.py` reads are
modelled; headers are a plain ordered mapping from string keys to string
values (an absent key is absent, a present-but-empty receiver is falsy). -/
structure Task where
  fquid : String
  headers : List (String × String)
  priority : TaskPriority

/-- Python dict lookup `headers[k]` made total: `none` is the `KeyError` case. -/
def headerGet : List (String × String) → String → Option String
  | [], _ => none
  | (k', v) :: rest, k => if k' = k then some v else headerGet rest k

/-- Python `s.endswith(suffix)` over the character sequence (kept separate
from `String.endsWith`, which does not reduce inside the kernel). -/
def endswith (s suffix : String) : Bool :=
  List.isSuffixOf suffix.data s.data

/-- `KartonBind` namedtuple.  Every field the wire can carry is a JSON value;
`identity` is the hash field the bind is stored under. -/
structure KartonBind where
  identity : String
  info : Json
  version : Json
  persistent : Json
  filters : Json
  service_version : Json

/-- `KartonMetrics` enum. -/
inductive KartonMetrics where
  | task_produced : KartonMetrics
  | task_consumed : KartonMetrics
  | task_crashed : KartonMetrics
  | task_assigned : KartonMetrics
  | task_garbage_collected : KartonMetrics
deriving DecidableEq

/-- `.value` of the `KartonMetrics` enum members. -/
def KartonMetrics.value : KartonMetrics → String
  | .task_produced => "karton.metrics.produced"
  | .task_consumed => "karton.metrics.consumed"
  | .task_crashed => "karton.metrics.crashed"
  | .task_assigned => "karton.metrics.assigned"
  | .task_garbage_collected => "karton.metrics.garbage-collected"

/-- `KARTON_ASSIGNED_NAMESPACE` constant. -/
def KARTON_ASSIGNED_NAMESPACE : String := "karton.assigned"

/-! ### Redis state

Each Redis namespace the claims touch is modelled as its own piece of state:

* `BindsState` — the `karton.binds` hash: identity to stored JSON bind record
  (`none` when `hget` would return `None`);
* `TaskState` — the `karton.task:<fquid>` string keyspace: fquid to serialized
  record.  `Task.unserialize` is defined outside `backend.py`, so a resolved
  task is kept in its opaque serialized form;
* `QueueState` — Redis lists by queue name, head = oldest (`lpop` side);
* `AssignState` — the `karton.assigned:<identity>` sets, keyed by full key;
* `MetricsState` — the `karton.metrics.*` hashes, keyed by hash key and field,
  defaulting to 0 (`hincrby` semantics on a missing field). -/

def BindsState := String → Option Json

def TaskState := String → Option String

def QueueState := String → List String

def AssignState := String → Finset String

def MetricsState := String → String → Int

/-! ### QueueRouter: queue naming -/

/-- `get_queue_name`: `karton.queue.<priority>:<identity>`. -/
def get_queue_name (identity : String) (priority : TaskPriority) : String :=
  "karton.queue." ++ priority.value ++ ":" ++ identity

/-- `get_queue_names`: the bare legacy queue first (2.x.x backwards
compatibility), then the high, normal and low priority queues. -/
def get_queue_names (identity : String) : List String :=
  [ identity,
    get_queue_name identity TaskPriority.high,
    get_queue_name identity TaskPriority.normal,
    get_queue_name identity TaskPriority.low ]

/-! ### BindRegistry -/

/-- `serialize_bind`: `json.dumps({...}, sort_keys=True)` — the JSON object
with its five keys in sorted order. -/
def serialize_bind (bind : KartonBind) : Json :=
  Json.obj
    [ ("filters", bind.filters),
      ("info", bind.info),
      ("persistent", bind.persistent),
      ("service_version", bind.service_version),
      ("version", bind.version) ]

/-- `unserialize_bind`: a bare JSON list is the 2.x.x legacy form (filters
only, persistence inferred from the `.test` identity suffix); otherwise the
structured form is decoded, with `KeyError` on a missing required key
(`service_version` is read with `.get`, defaulting to `None`).  A scalar
payload raises `TypeError` on the first subscript. -/
def unserialize_bind (identity : String) (bind : Json) : Except String KartonBind :=
  match bind with
  | Json.arr filters =>
    Except.ok
      { identity := identity,
        info := Json.null,
        version := Json.str "2.x.x",
        persistent := Json.bool (!(endswith identity ".test")),
        filters := Json.arr filters,
        service_version := Json.null }
  | Json.obj kvs =>
    match lookupKey kvs "info", lookupKey kvs "version",
          lookupKey kvs "persistent", lookupKey kvs "filters" with
    | some info, some version, some persistent, some filters =>
      Except.ok
        { identity := identity,
          info := info,
          version := version,
          persistent := persistent,
          filters := filters,
          service_version := (lookupKey kvs "service_version").getD Json.null }
    | _, _, _, _ => Except.error "KeyError"
  | _ => Except.error "TypeError: value is not subscriptable"

/-- `get_bind`: `hget` the identity's slot and unserialize it.  When the
identity has no slot, `hget` returns `None` and `json.loads(None)` raises
`TypeError` before any decoding happens. -/
def get_bind (binds : BindsState) (identity : String) : Except String KartonBind :=
  match binds identity with
  | none => Except.error "TypeError: the JSON object must be str, not NoneType"
  | some raw => unserialize_bind identity raw

/-- `register_bind`: one `MULTI` transaction doing `hget` then `hset`, then
unserialize of the old value when one existed (a stored record is a nonempty
JSON text, hence truthy). -/
def register_bind (binds : BindsState) (bind : KartonBind) :
    Except String (Option KartonBind) × BindsState :=
  let old := binds bind.identity
  let binds' : BindsState :=
    fun i => if i = bind.identity then some (serialize_bind bind) else binds i
  match old with
  | some raw => ((unserialize_bind bind.identity raw).map some, binds')
  | none => (Except.ok none, binds')

/-! ### TaskStore -/

/-- `get_task`: `GET karton.task:<fquid>`; a missing or empty record returns
`None` (absence, not an error).  `Task.unserialize` lives outside
`backend.py`, so the resolved task is the stored serialized record itself. -/
def get_task (tasks : TaskState) (task_fquid : String) : Option String :=
  match tasks task_fquid with
  | none => none
  | some task_data => if task_data = "" then none else some task_data

/-! ### QueueRouter: consuming -/

/-- `consume_queues`: `BLPOP` over the given queue names.  `BLPOP` pops the
head of the first listed queue that is nonempty; the blocked/timeout outcome
(no queue ever nonempty within `timeout`) is the `none` result of a state in
which every listed queue is empty. -/
def consume_queues (qs : QueueState) :
    List String → Option (String × String) × QueueState
  | [] => (none, qs)
  | q :: rest =>
    match qs q with
    | [] => consume_queues qs rest
    | x :: xs => (some (q, x), fun n => if n = q then xs else qs n)

/-- `consume_routed_task`: blocking pop across `get_queue_names identity`,
then resolve the popped fquid through `get_task` (which may itself be `None`
after a concurrent deletion). -/
def consume_routed_task (qs : QueueState) (tasks : TaskState) (identity : String) :
    Option String × QueueState :=
  match consume_queues qs (get_queue_names identity) with
  | (none, qs') => (none, qs')
  | (some (_, data), qs') => (get_task tasks data, qs')

/-- Redis `LRANGE` (also the keep-range of `LTRIM`): negative indices count
from the end, the start is clamped to the head, the stop to the last element,
and an inverted range is empty. -/
def lrange (l : List String) (start stop : Int) : List String :=
  let n : Int := l.length
  let s : Int := if start < 0 then max (n + start) 0 else start
  let e : Int := min (if stop < 0 then n + stop else stop) (n - 1)
  if s ≤ e then (l.take (e.toNat + 1)).drop s.toNat else []

/-- `consume_queues_batch`: one `MULTI` transaction doing
`LRANGE queue 0 (max_count - 1)` then `LTRIM queue max_count -1`, returning
the `LRANGE` result. -/
def consume_queues_batch (qs : QueueState) (queue : String) (max_count : Int) :
    List String × QueueState :=
  let res := lrange (qs queue) 0 (max_count - 1)
  let kept := lrange (qs queue) max_count (-1)
  (res, fun n => if n = queue then kept else qs n)

/-! ### AssignmentTracker -/

/-- A value handed to the redis-py command encoder as one command argument.
redis-py encodes bytes/str/int/float arguments and raises
`redis.exceptions.DataError` for anything else (in particular a Python
`list` passed as a single member). -/
inductive RVal where
  | str (s : String) : RVal
  | list (l : List String) : RVal

/-- `SREM key member` through the redis-py encoder: a string member is removed
from the set, a list member is rejected with `DataError` before the command is
sent. -/
def redis_srem (s : AssignState) (key : String) (member : RVal) :
    Except String AssignState :=
  match member with
  | RVal.str m => Except.ok (fun k => if k = key then (s key).erase m else s k)
  | RVal.list _ => Except.error "DataError: Invalid input of type list"

/-- `unassign_task_from_consumer`: reads `task.headers["receiver"]` (a missing
key raises `KeyError`), returns silently when the receiver is falsy, else
`SREM`s the fquid from the receiver's assignment set. -/
def unassign_task_from_consumer (s : AssignState) (task : Task) :
    Except String AssignState :=
  match headerGet task.headers "receiver" with
  | none => Except.error "KeyError: receiver"
  | some identity =>
    if identity = "" then Except.ok s
    else redis_srem s (KARTON_ASSIGNED_NAMESPACE ++ ":" ++ identity)
      (RVal.str task.fquid)

/-- `consumers[identity]` of the grouping `defaultdict(list)`. -/
def groupGet : List (String × List String) → String → List String
  | [], _ => []
  | (k', v) :: rest, k => if k' = k then v else groupGet rest k

/-- Assignment into the grouping dict: update in place, or append a fresh key
in insertion order. -/
def groupSet : List (String × List String) → String → List String →
    List (String × List String)
  | [], k, v => [(k, v)]
  | (k', v') :: rest, k, v =>
    if k' = k then (k', v) :: rest else (k', v') :: groupSet rest k v

/-- First phase of `unassign_tasks_from_consumers`: group fquids by receiver
(`KeyError` on a missing receiver key, skip on a falsy one) and, whenever a
group reaches `chunk_size`, flush it mid-loop with
`SREM key consumers[identity]` — the accumulated Python *list* passed as a
single member — and reset the group. -/
def bulkGroupLoop (s : AssignState) (consumers : List (String × List String))
    (chunk_size : Nat) :
    List Task → Except String (AssignState × List (String × List String))
  | [] => Except.ok (s, consumers)
  | task :: rest =>
    match headerGet task.headers "receiver" with
    | none => Except.error "KeyError: receiver"
    | some identity =>
      if identity = "" then bulkGroupLoop s consumers chunk_size rest
      else
        let grp := groupGet consumers identity ++ [task.fquid]
        let consumers := groupSet consumers identity grp
        if chunk_size ≤ grp.length then
          match redis_srem s (KARTON_ASSIGNED_NAMESPACE ++ ":" ++ identity)
              (RVal.list grp) with
          | Except.error e => Except.error e
          | Except.ok s' =>
            bulkGroupLoop s' (groupSet consumers identity []) chunk_size rest
        else bulkGroupLoop s consumers chunk_size rest

/-- Second phase: flush every nonempty remaining group, again passing the
accumulated list as a single `SREM` member. -/
def bulkFlushLoop (s : AssignState) :
    List (String × List String) → Except String AssignState
  | [] => Except.ok s
  | (identity, grp) :: rest =>
    if grp.isEmpty then bulkFlushLoop s rest
    else
      match redis_srem s (KARTON_ASSIGNED_NAMESPACE ++ ":" ++ identity)
          (RVal.list grp) with
      | Except.error e => Except.error e
      | Except.ok s' => bulkFlushLoop s' rest

/-- `unassign_tasks_from_consumers`: accumulate-then-flush over the task list
with mid-loop flushes at `chunk_size`. -/
def unassign_tasks_from_consumers (s : AssignState) (tasks : List Task)
    (chunk_size : Nat) : Except String AssignState :=
  match bulkGroupLoop s [] chunk_size tasks with
  | Except.error e => Except.error e
  | Except.ok (s', consumers) => bulkFlushLoop s' consumers

/-! ### MetricsCounter -/

/-- Redis `HINCRBY key field amount`; a missing field starts from 0 (the
hashes are modelled as total functions defaulting to 0). -/
def hincrby (s : MetricsState) (key field : String) (amount : Int) : MetricsState :=
  fun k f => if k = key ∧ f = field then s k f + amount else s k f

/-- `increment_metrics`: `HINCRBY metric.value identity 1`. -/
def increment_metrics (s : MetricsState) (metric : KartonMetrics)
    (identity : String) : MetricsState :=
  hincrby s metric.value identity 1

/-- `increment_multiple_metrics`: one pipeline of `HINCRBY` per
`(identity, increment)` pair, in dict order. -/
def increment_multiple_metrics (s : MetricsState) (metric : KartonMetrics)
    (increments : List (String × Int)) : MetricsState :=
  increments.foldl (fun st p => hincrby st metric.value p.1 p.2) s

/-- `increment_metrics_list`: one pipeline of `HINCRBY ... 1` per identity. -/
def increment_metrics_list (s : MetricsState) (metric : KartonMetrics)
    (identities : List String) : MetricsState :=
  identities.foldl (fun st identity => hincrby st metric.value identity 1) s

/-- `get_metrics`: the identity-to-count mapping of one metric hash
(`int(v)` on values already integral in the model). -/
def get_metrics (s : MetricsState) (metric : KartonMetrics) : String → Int :=
  s metric.value

/-- The primitive `HINCRBY` trace of a sequence of increments against one
metric hash; every metrics API call flattens to such a trace. -/
def applyIncrements (s : MetricsState) (metric : KartonMetrics)
    (ops : List (String × Int)) : MetricsState :=
  ops.foldl (fun st p => hincrby st metric.value p.1 p.2) s

/-! ### LogChannel -/

/-- One `pubsub.get_message` poll result: `none` for a timeout, otherwise a
message with its redis-py `type` field and its already-`json.loads`-decoded
`data` payload. -/
structure PubSubItem where
  type : String
  data : Json

/-- The body fix-up of `consume_log`:
`if "task" in body and isinstance(body["task"], str): body["task"] = json.loads(body["task"])`.
On a dict body, a string-typed `task` field is replaced by its parsed value
(`JSONDecodeError` when it does not parse); non-dict bodies follow Python's
`in`/subscript semantics (`TypeError` on subscripting, or on `in` against a
scalar). -/
def decodeLogBody (body : Json) : Except String Json :=
  match body with
  | Json.obj kvs =>
    match lookupKey kvs "task" with
    | some (Json.str s) =>
      match loads s with
      | some t => Except.ok (Json.obj (setKey kvs "task" t))
      | none => Except.error "json.decoder.JSONDecodeError"
    | _ => Except.ok body
  | Json.arr xs =>
    if xs.any (fun x => match x with | Json.str s => s = "task" | _ => false)
    then Except.error "TypeError: list indices must be integers"
    else Except.ok body
  | Json.str s =>
    if (s.splitOn "task").length > 1
    then Except.error "TypeError: string indices must be integers"
    else Except.ok body
  | _ => Except.error "TypeError: argument is not iterable"

/-- `consume_log` run against a finite prefix of poll results: each cycle
polls once; a `pmessage` item has its body decoded and yielded, and then the
loop body unconditionally yields `None` — also in a cycle that just yielded a
record.  A decoding exception kills the generator; the second component
records it. -/
def consume_log : List (Option PubSubItem) → List (Option Json) × Option String
  | [] => ([], none)
  | cycle :: rest =>
    match cycle with
    | none =>
      let r := consume_log rest
      (none :: r.1, r.2)
    | some item =>
      if item.type = "pmessage" then
        match decodeLogBody item.data with
        | Except.error e => ([], some e)
        | Except.ok body =>
          let r := consume_log rest
          (some body :: none :: r.1, r.2)
      else
        let r := consume_log rest
        (none :: r.1, r.2)

/-! ## Theorems -/

/-- Helper: decoding a freshly structured-encoded bind under its own identity
restores the bind. -/
lemma unserialize_serialize_bind (b : KartonBind) :
    unserialize_bind b.identity (serialize_bind b) = Except.ok b := rfl

/-- Claim C9: for every non-legacy bind, `unserialize_bind` applied under the
same identity to the output of `serialize_bind` yields a bind equal to the
original (the fresh encoding is always the structured, non-legacy wire
form). -/
theorem bind_serialization_roundtrip (b : KartonBind) :
    unserialize_bind b.identity (serialize_bind b) = Except.ok b :=
  unserialize_serialize_bind b

/-- Claim C6: for every bind stored in the legacy wire form (a bare JSON
list), `get_bind identity` decodes it as a filters-only bind whose filters
equal that list, with persistent true unless the identity ends in the
reserved `.test` suffix. -/
theorem legacy_bind_decode (binds : BindsState) (identity : String)
    (filters : List Json) (h : binds identity = some (Json.arr filters)) :
    get_bind binds identity =
      Except.ok
        { identity := identity,
          info := Json.null,
          version := Json.str "2.x.x",
          persistent := Json.bool (!(endswith identity ".test")),
          filters := Json.arr filters,
          service_version := Json.null } := by
  simp [get_bind, h, unserialize_bind]

/-- Stored legacy bind used to instantiate C6. -/
def c6Binds : BindsState :=
  fun i => if i = "karton.classifier" then
    some (Json.arr [Json.obj [("type", Json.str "sample")]]) else none

/-- Witness for C6 at a concrete legacy record (whose identity does not end
in the reserved suffix, so persistence decodes to true). -/
theorem legacy_bind_decode_witness :
    c6Binds "karton.classifier" =
        some (Json.arr [Json.obj [("type", Json.str "sample")]]) ∧
      (!(endswith "karton.classifier" ".test")) = true ∧
      get_bind c6Binds "karton.classifier" =
        Except.ok
          { identity := "karton.classifier",
            info := Json.null,
            version := Json.str "2.x.x",
            persistent := Json.bool (!(endswith "karton.classifier" ".test")),
            filters := Json.arr [Json.obj [("type", Json.str "sample")]],
            service_version := Json.null } :=
  ⟨rfl, by decide, legacy_bind_decode c6Binds "karton.classifier"
    [Json.obj [("type", Json.str "sample")]] rfl⟩

/-- Claim C4: `register_bind` returns exactly the bind previously registered
under that identity (`none` on first write), and an immediately following
`get_bind` returns the newly registered bind. -/
theorem register_bind_returns_prior (binds : BindsState) (b : KartonBind)
    (prior : Option KartonBind)
    (hstore : binds b.identity = prior.map serialize_bind)
    (hid : ∀ p, prior = some p → p.identity = b.identity) :
    (register_bind binds b).1 = Except.ok prior ∧
      get_bind (register_bind binds b).2 b.identity = Except.ok b := by
  constructor
  · cases prior with
    | none => simp [register_bind, hstore]
    | some p =>
      have hpid := hid p rfl
      have h1 : binds b.identity = some (serialize_bind p) := by simpa using hstore
      simp only [register_bind, h1]
      rw [← hpid, unserialize_serialize_bind]
      rfl
  · cases prior with
    | none => simp [register_bind, hstore, get_bind, unserialize_serialize_bind]
    | some p => simp [register_bind, hstore, get_bind, unserialize_serialize_bind]

/-- Prior bind used to instantiate C4. -/
def c4Prior : KartonBind :=
  { identity := "karton.reporter",
    info := Json.str "old reporter",
    version := Json.str "5.0.0",
    persistent := Json.bool true,
    filters := Json.arr [Json.obj [("type", Json.str "sample")]],
    service_version := Json.str "1.0.0" }

/-- New bind used to instantiate C4. -/
def c4New : KartonBind :=
  { identity := "karton.reporter",
    info := Json.str "new reporter",
    version := Json.str "5.3.0",
    persistent := Json.bool false,
    filters := Json.arr [Json.obj [("type", Json.str "config")]],
    service_version := Json.str "2.0.0" }

/-- Stored binds hash used to instantiate C4. -/
def c4Binds : BindsState :=
  fun i => if i = "karton.reporter" then some (serialize_bind c4Prior) else none

/-- Witness for C4: re-registering over a concrete prior record returns that
record and a following `get_bind` reads back the new one. -/
theorem register_bind_returns_prior_witness :
    (register_bind c4Binds c4New).1 = Except.ok (some c4Prior) ∧
      get_bind (register_bind c4Binds c4New).2 "karton.reporter" =
        Except.ok c4New :=
  register_bind_returns_prior c4Binds c4New (some c4Prior) rfl
    (fun _ hp => by cases hp; rfl)

/-- Claim C10: for an identity with no registered bind, `get_bind` raises an
error rather than returning an absence value, while `get_task` returns
absence for an unknown fquid. -/
theorem get_bind_errors_get_task_absent (binds : BindsState) (tasks : TaskState)
    (identity task_fquid : String) (hb : binds identity = none)
    (ht : tasks task_fquid = none) :
    (∃ e, get_bind binds identity = Except.error e) ∧
      get_task tasks task_fquid = none := by
  refine ⟨⟨"TypeError: the JSON object must be str, not NoneType", ?_⟩, ?_⟩
  · simp [get_bind, hb]
  · simp [get_task, ht]

/-- Witness for C10 on the empty stores. -/
theorem get_bind_errors_get_task_absent_witness :
    (∃ e, get_bind (fun _ => none) "karton.unknown" = Except.error e) ∧
      get_task (fun _ => none) "root:uid" = none :=
  get_bind_errors_get_task_absent (fun _ => none) (fun _ => none)
    "karton.unknown" "root:uid" rfl rfl

/-- Helper: `HINCRBY` against a fixed hash is right-commutative in the
`(field, amount)` pair. -/
lemma hincrby_right_comm (key : String) (z : MetricsState) (x y : String × Int) :
    hincrby (hincrby z key x.1 x.2) key y.1 y.2 =
      hincrby (hincrby z key y.1 y.2) key x.1 x.2 := by
  funext k f
  simp only [hincrby]
  by_cases hk : k = key
  · subst hk
    split_ifs <;> omega
  · simp [hk]

/-- Claim C8: metric increments are commutative and associative — for one
metric kind, any ordering (permutation) of the same primitive increment trace
yields the same `get_metrics` snapshot, traces compose by concatenation, and
each of the three increment entry points is exactly its primitive trace. -/
theorem metrics_increments_commute (s : MetricsState) (metric : KartonMetrics)
    (ops₁ ops₂ incs : List (String × Int)) (identity : String)
    (identities : List String) (hperm : ops₁.Perm ops₂) :
    get_metrics (applyIncrements s metric ops₁) metric =
        get_metrics (applyIncrements s metric ops₂) metric ∧
      applyIncrements s metric (ops₁ ++ ops₂) =
        applyIncrements (applyIncrements s metric ops₁) metric ops₂ ∧
      increment_metrics s metric identity =
        applyIncrements s metric [(identity, 1)] ∧
      increment_multiple_metrics s metric incs = applyIncrements s metric incs ∧
      increment_metrics_list s metric identities =
        applyIncrements s metric (identities.map (fun i => (i, 1))) := by
  refine ⟨?_, ?_, rfl, rfl, ?_⟩
  · have hstate : applyIncrements s metric ops₁ = applyIncrements s metric ops₂ :=
      hperm.foldl_eq'
        (fun x _ y _ z => hincrby_right_comm metric.value z x y) s
    rw [applyIncrements] at hstate
    simp only [applyIncrements, hstate]
  · simp only [applyIncrements, List.foldl_append]
  · simp only [applyIncrements, increment_metrics_list, List.foldl_map]

/-- Witness for C8: two orderings of the same increments, applied to the zero
counters, agree, and the batch entry points flatten as stated. -/
theorem metrics_increments_commute_witness :
    List.Perm [("karton.classifier", (1 : Int)), ("karton.reporter", 2)]
        [("karton.reporter", 2), ("karton.classifier", (1 : Int))] ∧
      get_metrics
          (applyIncrements (fun _ _ => 0) KartonMetrics.task_produced
            [("karton.classifier", 1), ("karton.reporter", 2)])
          KartonMetrics.task_produced =
        get_metrics
          (applyIncrements (fun _ _ => 0) KartonMetrics.task_produced
            [("karton.reporter", 2), ("karton.classifier", 1)])
          KartonMetrics.task_produced :=
  ⟨by decide,
    (metrics_increments_commute (fun _ _ => 0) KartonMetrics.task_produced
      [("karton.classifier", 1), ("karton.reporter", 2)]
      [("karton.reporter", 2), ("karton.classifier", 1)] [] "" []
      (by decide)).1⟩

/-- Helper: `LRANGE queue 0 (m-1)` grabs the `m` oldest entries when
`1 ≤ m`. -/
lemma lrange_zero_take (l : List String) (m : Int) (h : 1 ≤ m) :
    lrange l 0 (m - 1) = l.take m.toNat := by
  unfold lrange
  simp only
  have h0 : ¬ ((0 : Int) < 0) := by omega
  have h1 : ¬ (m - 1 < 0) := by omega
  rw [if_neg h0, if_neg h1]
  cases l with
  | nil =>
    have hc : ¬ ((0 : Int) ≤
        min (m - 1) ((List.length ([] : List String) : Int) - 1)) := by
      simp only [List.length_nil, Nat.cast_zero]
      omega
    rw [if_neg hc, List.take_nil]
  | cons a t =>
    have hc : (0 : Int) ≤ min (m - 1) ((List.length (a :: t) : Int) - 1) := by
      simp only [List.length_cons, Nat.cast_add, Nat.cast_one]
      omega
    rw [if_pos hc]
    simp only [Int.toNat_zero, List.drop_zero]
    rw [List.take_eq_take]
    omega

/-- Helper: `LTRIM queue m -1` keeps exactly the entries after the `m` oldest
when `1 ≤ m`. -/
lemma lrange_tail_drop (l : List String) (m : Int) (h : 1 ≤ m) :
    lrange l m (-1) = l.drop m.toNat := by
  unfold lrange
  simp only
  have h0 : ¬ (m < 0) := by omega
  have h1 : (-1 : Int) < 0 := by omega
  rw [if_neg h0, if_pos h1]
  have hmin : min ((List.length l : Int) + -1) ((List.length l : Int) - 1) =
      (List.length l : Int) - 1 := by omega
  rw [hmin]
  by_cases hc : m ≤ (List.length l : Int) - 1
  · rw [if_pos hc]
    have htake : ((List.length l : Int) - 1).toNat + 1 = l.length := by omega
    rw [htake, List.take_length]
  · rw [if_neg hc]
    have : l.length ≤ m.toNat := by omega
    rw [List.drop_eq_nil_of_le this]

/-- Claim C5 (amended to `1 ≤ max_count`): `consume_queues_batch` returns the
at most `max_count` oldest entries, removes exactly those, leaves the
remainder in order, and touches no other queue. -/
theorem consume_queues_batch_spec (qs : QueueState) (queue : String)
    (max_count : Int) (h : 1 ≤ max_count) :
    (consume_queues_batch qs queue max_count).1 =
        (qs queue).take max_count.toNat ∧
      (consume_queues_batch qs queue max_count).2 queue =
        (qs queue).drop max_count.toNat ∧
      (consume_queues_batch qs queue max_count).1 ++
          (consume_queues_batch qs queue max_count).2 queue = qs queue ∧
      (consume_queues_batch qs queue max_count).1.length ≤ max_count.toNat ∧
      ∀ p, p ≠ queue → (consume_queues_batch qs queue max_count).2 p = qs p := by
  have h1 : (consume_queues_batch qs queue max_count).1 =
      (qs queue).take max_count.toNat := lrange_zero_take (qs queue) max_count h
  have h2 : (consume_queues_batch qs queue max_count).2 queue =
      (qs queue).drop max_count.toNat := by
    simp only [consume_queues_batch, if_pos rfl]
    exact lrange_tail_drop (qs queue) max_count h
  refine ⟨h1, h2, ?_, ?_, ?_⟩
  · rw [h1, h2, List.take_append_drop]
  · rw [h1]
    exact (List.length_take _ _).trans_le (min_le_left _ _)
  · intro p hp
    simp only [consume_queues_batch, if_neg hp]

/-- Queue used to instantiate and refute C5. -/
def c5Qs : QueueState :=
  fun n => if n = "karton.queue.high:w" then ["r1:u1", "r2:u2", "r3:u3"] else []

/-- Counterexample to C5 as stated: with `max_count = 0` the transaction is
`LRANGE q 0 -1` / `LTRIM q 0 -1`, which returns every entry yet removes
nothing — the returned entries are not the removed ones and exceed
`max_count`. -/
theorem consume_queues_batch_zero :
    (consume_queues_batch c5Qs "karton.queue.high:w" 0).1 =
        ["r1:u1", "r2:u2", "r3:u3"] ∧
      (consume_queues_batch c5Qs "karton.queue.high:w" 0).2
          "karton.queue.high:w" = ["r1:u1", "r2:u2", "r3:u3"] := by
  constructor <;> rfl

/-- Witness for the amended C5 at `max_count = 2` on a three-element queue. -/
theorem consume_queues_batch_spec_witness :
    (1 : Int) ≤ 2 ∧
      (consume_queues_batch c5Qs "karton.queue.high:w" 2).1 =
        ["r1:u1", "r2:u2"] ∧
      (consume_queues_batch c5Qs "karton.queue.high:w" 2).2
          "karton.queue.high:w" = ["r3:u3"] :=
  ⟨by omega,
    ((consume_queues_batch_spec c5Qs "karton.queue.high:w" 2 (by omega)).1).trans
      (by rfl),
    ((consume_queues_batch_spec c5Qs "karton.queue.high:w" 2
      (by omega)).2.1).trans (by rfl)⟩

/-- Helper: a successful `BLPOP` pops the head of the first nonempty listed
queue — everything listed before it is empty — and leaves every other queue
untouched. -/
lemma consume_queues_eq_some (qs : QueueState) (names : List String)
    (q d : String) (h : (consume_queues qs names).1 = some (q, d)) :
    ∃ l₁ l₂, names = l₁ ++ q :: l₂ ∧ (∀ p ∈ l₁, qs p = []) ∧
      ∃ tl, qs q = d :: tl ∧
        (consume_queues qs names).2 = fun n => if n = q then tl else qs n := by
  induction names with
  | nil => simp [consume_queues] at h
  | cons a rest ih =>
    cases hq : qs a with
    | nil =>
      simp only [consume_queues, hq] at h ⊢
      obtain ⟨l₁, l₂, h1, h2, tl, h3, h4⟩ := ih h
      refine ⟨a :: l₁, l₂, by rw [h1, List.cons_append], ?_, tl, h3, h4⟩
      intro p hp
      rcases List.mem_cons.mp hp with hpa | hpl
      · rw [hpa, hq]
      · exact h2 p hpl
    | cons x xs =>
      simp only [consume_queues, hq] at h ⊢
      obtain ⟨rfl, rfl⟩ : a = q ∧ x = d := by
        have := h
        simp at this
        exact this
      exact ⟨[], rest, rfl, by simp, xs, hq, rfl⟩

/-- Claim C1 (amended: the legacy bare-identity queue has the *highest*
precedence, before HIGH, NORMAL and LOW): a successful `consume_routed_task`
pops the head of one of the identity's own queues, every queue listed before
it in `get_queue_names` (legacy first, then high, normal, low) is empty, the
result is that fquid resolved through `get_task`, and no other queue is
touched. -/
theorem consume_routed_task_order (qs : QueueState) (tasks : TaskState)
    (identity q d : String)
    (h : (consume_queues qs (get_queue_names identity)).1 = some (q, d)) :
    q ∈ get_queue_names identity ∧
      (∃ l₁ l₂, get_queue_names identity = l₁ ++ q :: l₂ ∧ ∀ p ∈ l₁, qs p = []) ∧
      (∃ tl, qs q = d :: tl) ∧
      (consume_routed_task qs tasks identity).1 = get_task tasks d ∧
      (∀ p, p ≠ q → (consume_routed_task qs tasks identity).2 p = qs p) := by
  obtain ⟨l₁, l₂, h1, h2, tl, h3, h4⟩ :=
    consume_queues_eq_some qs (get_queue_names identity) q d h
  have hpair : consume_queues qs (get_queue_names identity) =
      (some (q, d), fun n => if n = q then tl else qs n) := by
    cases hcq : consume_queues qs (get_queue_names identity) with
    | mk fst snd =>
      rw [hcq] at h h4
      simp only at h h4
      rw [h, h4]
  refine ⟨?_, ⟨l₁, l₂, h1, h2⟩, ⟨tl, h3⟩, ?_, ?_⟩
  · rw [h1]
    exact List.mem_append_right l₁ (List.mem_cons_self q l₂)
  · simp [consume_routed_task, hpair]
  · intro p hp
    simp [consume_routed_task, hpair, hp]

/-- Queues used to instantiate and refute C1: the identity's legacy queue and
HIGH queue each hold one task. -/
def c1Qs : QueueState :=
  fun n =>
    if n = "karton.classifier" then ["r1:u1"]
    else if n = "karton.queue.high:karton.classifier" then ["r2:u2"]
    else []

/-- Task records backing `c1Qs`. -/
def c1Tasks : TaskState :=
  fun fq =>
    if fq = "r1:u1" then some "legacy-task-record"
    else if fq = "r2:u2" then some "high-task-record"
    else none

/-- Counterexample to C1 as stated: with a HIGH-priority task queued,
`consume_routed_task` still returns the task of the legacy bare-identity
queue — the legacy queue is dequeued *before* HIGH, not after LOW. -/
theorem consume_routed_task_legacy_beats_high :
    (consume_routed_task c1Qs c1Tasks "karton.classifier").1 =
        some "legacy-task-record" ∧
      c1Qs (get_queue_name "karton.classifier" TaskPriority.high) =
        ["r2:u2"] := by
  constructor <;> rfl

/-- Witness for the amended C1 at the concrete queue state. -/
theorem consume_routed_task_order_witness :
    (consume_queues c1Qs (get_queue_names "karton.classifier")).1 =
        some ("karton.classifier", "r1:u1") ∧
      "karton.classifier" ∈ get_queue_names "karton.classifier" ∧
      (consume_routed_task c1Qs c1Tasks "karton.classifier").1 =
        get_task c1Tasks "r1:u1" :=
  ⟨by rfl,
    (consume_routed_task_order c1Qs c1Tasks "karton.classifier"
      "karton.classifier" "r1:u1" (by rfl)).1,
    (consume_routed_task_order c1Qs c1Tasks "karton.classifier"
      "karton.classifier" "r1:u1" (by rfl)).2.2.2.1⟩

/-- A task with no receiver header at all, as produced before routing. -/
def c2Task : Task :=
  { fquid := "r1:u1",
    headers := [("type", "sample")],
    priority := TaskPriority.normal }

/-- Claim C2 (code bug): `unassign_task_from_consumer` evaluates
`task.headers["receiver"]`, so a task whose headers carry no receiver key
raises `KeyError` instead of the silent no-op that the spec — and the
function's own `Just assume that they're unrouted/unassigned` comment —
promise.  Only a receiver key that is present but empty is a no-op. -/
theorem unassign_missing_receiver_keyerror :
    headerGet c2Task.headers "receiver" = none ∧
      unassign_task_from_consumer (fun _ => {"r1:u1"}) c2Task =
        Except.error "KeyError: receiver" ∧
      unassign_task_from_consumer (fun _ => {"r1:u1"})
          { c2Task with headers := [("type", "sample"), ("receiver", "")] } =
        Except.ok (fun _ => {"r1:u1"}) :=
  ⟨rfl, rfl, rfl⟩

/-- A routed task carrying a receiver header, as handed to bulk unassign. -/
def c7Task : Task :=
  { fquid := "r1:u1",
    headers := [("receiver", "karton.classifier")],
    priority := TaskPriority.normal }

/-- Claim C7 (code bug): `unassign_tasks_from_consumers` flushes each group
with `self.redis.srem(key, consumers[identity])`, passing the accumulated
Python *list* as a single member instead of unpacking it, so redis-py rejects
every flush with `DataError` and no fquid is ever removed. -/
theorem bulk_unassign_data_error :
    unassign_tasks_from_consumers (fun _ => {"r1:u1"}) [c7Task] 1000 =
      Except.error "DataError: Invalid input of type list" := by rfl

/-- Per-cycle record arrivals of a poll trace: the decoded body of a
`pmessage` cycle, nothing otherwise. -/
def cycleRecords : Option PubSubItem → List Json
  | none => []
  | some item =>
    if item.type = "pmessage" then
      match decodeLogBody item.data with
      | Except.ok body => [body]
      | Except.error _ => []
    else []

/-- A cycle whose body decodes without raising (trivially true for a
timeout or non-`pmessage` cycle). -/
def cleanCycle : Option PubSubItem → Bool
  | none => true
  | some item =>
    if item.type = "pmessage" then
      match decodeLogBody item.data with
      | Except.ok _ => true
      | Except.error _ => false
    else true

/-- The non-null yields of a subscription run, in order. -/
def yieldedRecords : List (Option Json) → List Json
  | [] => []
  | none :: rest => yieldedRecords rest
  | some body :: rest => body :: yieldedRecords rest

/-- The number of null yields of a subscription run. -/
def countNulls : List (Option Json) → Nat
  | [] => 0
  | none :: rest => countNulls rest + 1
  | some _ :: rest => countNulls rest

/-- The records that arrived over a poll trace, in order. -/
def arrivedRecords : List (Option PubSubItem) → List Json
  | [] => []
  | c :: rest => cycleRecords c ++ arrivedRecords rest

/-- Claim C3 (amended: *every* poll cycle yields a null — a cycle in which a
record arrived yields the decoded record and then an extra null): over any
poll trace whose records decode cleanly, the subscription never dies, the
non-null yields are exactly the decoded records of the `pmessage` cycles in
order, and the null yields number one per poll cycle. -/
theorem consume_log_cadence (trace : List (Option PubSubItem))
    (h : ∀ c ∈ trace, cleanCycle c = true) :
    (consume_log trace).2 = none ∧
      yieldedRecords (consume_log trace).1 = arrivedRecords trace ∧
      countNulls (consume_log trace).1 = trace.length ∧
      (consume_log trace).1.length =
        trace.length + (arrivedRecords trace).length := by
  induction trace with
  | nil => simp [consume_log, yieldedRecords, countNulls, arrivedRecords]
  | cons c rest ih =>
    have hrest : ∀ x ∈ rest, cleanCycle x = true :=
      fun x hx => h x (List.mem_cons_of_mem c hx)
    obtain ⟨ih1, ih2, ih3, ih4⟩ := ih hrest
    have hc := h c (List.mem_cons_self c rest)
    cases c with
    | none =>
      refine ⟨?_, ?_, ?_, ?_⟩
      · simpa [consume_log] using ih1
      · simpa [consume_log, yieldedRecords, arrivedRecords, cycleRecords]
          using ih2
      · simp only [consume_log, countNulls, List.length_cons]
        omega
      · simp only [consume_log, List.length_cons, arrivedRecords,
          cycleRecords, List.nil_append]
        omega
    | some item =>
      by_cases ht : item.type = "pmessage"
      · cases hd : decodeLogBody item.data with
        | error e =>
          rw [cleanCycle, if_pos ht, hd] at hc
          cases hc
        | ok body =>
          refine ⟨?_, ?_, ?_, ?_⟩
          · simpa [consume_log, ht, hd] using ih1
          · simpa [consume_log, ht, hd, yieldedRecords, arrivedRecords,
              cycleRecords] using ih2
          · simp only [consume_log, if_pos ht, hd, countNulls,
              List.length_cons]
            omega
          · simp only [consume_log, if_pos ht, hd, List.length_cons,
              arrivedRecords, cycleRecords, if_pos ht, List.length_append,
              List.length_cons, List.length_nil]
            omega
      · refine ⟨?_, ?_, ?_, ?_⟩
        · simpa [consume_log, ht] using ih1
        · simpa [consume_log, ht, yieldedRecords, arrivedRecords,
            cycleRecords] using ih2
        · simp only [consume_log, if_neg ht, countNulls, List.length_cons]
          omega
        · simp only [consume_log, if_neg ht, List.length_cons,
            arrivedRecords, cycleRecords, if_neg ht, List.nil_append]
          omega

/-- A `pmessage` cycle whose body carries a string-serialized nested task
snapshot. -/
def c3Item : PubSubItem :=
  { type := "pmessage",
    data := Json.obj
      [("task", Json.str "[1, 2]"), ("message", Json.str "done")] }

/-- Counterexample to C3 as stated: a single poll cycle in which a record
arrives yields the decoded record *and then an extra null* — the loop body
yields `None` unconditionally after the record. -/
theorem consume_log_extra_null :
    consume_log [some c3Item] =
      ([some (Json.obj
          [("task", Json.arr [Json.num 1, Json.num 2]),
           ("message", Json.str "done")]),
        none], none) := by rfl

/-- Poll trace used to instantiate the amended C3: a timeout cycle, an
arrival cycle (with nested task decoding), and a non-`pmessage` cycle. -/
def c3Trace : List (Option PubSubItem) :=
  [none, some c3Item, some { type := "message", data := Json.str "ignored" }]

/-- Witness for the amended C3 on a concrete mixed trace. -/
theorem consume_log_cadence_witness :
    (∀ c ∈ c3Trace, cleanCycle c = true) ∧
      (consume_log c3Trace).2 = none ∧
      yieldedRecords (consume_log c3Trace).1 =
        [Json.obj
          [("task", Json.arr [Json.num 1, Json.num 2]),
           ("message", Json.str "done")]] ∧
      countNulls (consume_log c3Trace).1 = 3 :=
  ⟨by decide,
    (consume_log_cadence c3Trace (by decide)).1,
    ((consume_log_cadence c3Trace (by decide)).2.1).trans (by rfl),
    ((consume_log_cadence c3Trace (by decide)).2.2.1).trans (by rfl)⟩

end Karton
